import Mathlib

/-!
# Verification of the Call-Volume map core

Shallow embedding of the viewport-driven hierarchical region loader and
navigation state machine of the Call-Volume repository, together with proofs
about the claims of its specification.

Conventions used throughout:
* JavaScript numbers are modelled as rationals (`ℚ`); the `Infinity` /
  `-Infinity` fold seeds of the source are modelled with `WithTop ℚ` /
  `WithBot ℚ`.
* JavaScript strings that are only compared for equality are modelled as Lean
  `String`s; the strings that `parseCountyName` splits character by character
  are modelled as `List Char`.
* Code that can throw is modelled with `Option` (`none` = a thrown exception).
-/

namespace CallVolume

/-! ## src/src/lib/counties.ts -/

/-- Prepend a character to the first chunk of a split result.  Models the
"current chunk keeps growing" behaviour of scanning a string left to right. -/
def consHead (c : Char) : List (List Char) → List (List Char)
  | [] => [[c]]
  | x :: xs => (c :: x) :: xs

/-- `s.split(", ")` as used by `parseCountyName`: leftmost, non-overlapping
splitting of a character list on the two-character separator `", "`. -/
def splitCS : List Char → List (List Char)
  | [] => [[]]
  | [c] => [[c]]
  | c :: d :: rest =>
    if c = ',' ∧ d = ' ' then [] :: splitCS rest
    else consHead c (splitCS (d :: rest))

/-- `formatCountyName` from counties.ts: `` `${countyName}, ${stateName}` ``. -/
def formatCountyName (countyName stateName : List Char) : List Char :=
  countyName ++ ',' :: ' ' :: stateName

/-- `parseCountyName` from counties.ts: split on `", "`; `null` unless the
split yields exactly two parts. -/
def parseCountyName (fullCountyName : List Char) : Option (List Char × List Char) :=
  match splitCS fullCountyName with
  | [county, state] => some (county, state)
  | _ => none

/-- The per-county aggregated metrics (`CountyData.aggregatedStats` of
src/src/components/LeadsMap/types.ts). -/
structure CountyAggregatedStats where
  totalRequests : ℚ
  totalConversions : ℚ
  totalCallsConnected : ℚ
  zipCodeCount : ℚ
  avgBid : ℚ
  minBid : ℚ
  maxBid : ℚ
deriving DecidableEq

/-- `CountyData` of src/src/components/LeadsMap/types.ts (the fields the
studied functions read). -/
structure CountyData where
  countyName : String
  stateName : String
  zipCodes : List String
  coordinates : ℚ × ℚ
  aggregatedStats : CountyAggregatedStats
deriving DecidableEq

/-- Accumulator of the `reduce` used by both `aggregateMultipleCounties`
(counties.ts) and `getSelectedCountiesStats` (useCountySelection.ts); the two
reducers are textually identical in the source.  The `Infinity` / `-Infinity`
seeds of `minBid` / `maxBid` are `⊤ : WithTop ℚ` and `⊥ : WithBot ℚ`. -/
structure CountiesReduceAcc where
  totalRequests : ℚ
  totalConversions : ℚ
  totalCallsConnected : ℚ
  totalZipCodes : ℚ
  countyCount : ℕ
  avgBidSum : ℚ
  minBid : WithTop ℚ
  maxBid : WithBot ℚ
deriving DecidableEq

def countiesReduceInit : CountiesReduceAcc :=
  { totalRequests := 0, totalConversions := 0, totalCallsConnected := 0
    totalZipCodes := 0, countyCount := 0, avgBidSum := 0, minBid := ⊤, maxBid := ⊥ }

/-- One step of the shared `reduce` body. -/
def countiesReduceStep (acc : CountiesReduceAcc) (county : CountyData) : CountiesReduceAcc :=
  let stats := county.aggregatedStats
  { totalRequests := acc.totalRequests + stats.totalRequests
    totalConversions := acc.totalConversions + stats.totalConversions
    totalCallsConnected := acc.totalCallsConnected + stats.totalCallsConnected
    totalZipCodes := acc.totalZipCodes + stats.zipCodeCount
    countyCount := acc.countyCount + 1
    avgBidSum := acc.avgBidSum + stats.avgBid
    minBid := min acc.minBid (stats.minBid : WithTop ℚ)
    maxBid := max acc.maxBid (stats.maxBid : WithBot ℚ) }

/-- Return type of `aggregateMultipleCounties` (its declared TS shape). -/
structure AggregateCountiesResult where
  totalRequests : ℚ
  totalConversions : ℚ
  totalCallsConnected : ℚ
  totalZipCodes : ℚ
  countyCount : ℕ
  avgBid : ℚ
  minBid : ℚ
  maxBid : ℚ
  conversionRate : ℚ
  connectionRate : ℚ
deriving DecidableEq

/-- The all-zero record returned by `aggregateMultipleCounties` on `[]`. -/
def zeroAggregateResult : AggregateCountiesResult :=
  { totalRequests := 0, totalConversions := 0, totalCallsConnected := 0
    totalZipCodes := 0, countyCount := 0, avgBid := 0, minBid := 0, maxBid := 0
    conversionRate := 0, connectionRate := 0 }

/-- `aggregateMultipleCounties` from counties.ts.  The final
`minBid === Infinity ? 0 : minBid` coercion is `WithTop.untop' 0` (dually
`WithBot.unbot' 0` for `maxBid`). -/
def aggregateMultipleCounties (counties : List CountyData) : AggregateCountiesResult :=
  if counties.isEmpty then zeroAggregateResult
  else
    let aggregated := counties.foldl countiesReduceStep countiesReduceInit
    let avgBid := aggregated.avgBidSum / (aggregated.countyCount : ℚ)
    let conversionRate :=
      if 0 < aggregated.totalRequests then
        aggregated.totalConversions / aggregated.totalRequests * 100
      else 0
    let connectionRate :=
      if 0 < aggregated.totalRequests then
        aggregated.totalCallsConnected / aggregated.totalRequests * 100
      else 0
    { totalRequests := aggregated.totalRequests
      totalConversions := aggregated.totalConversions
      totalCallsConnected := aggregated.totalCallsConnected
      totalZipCodes := aggregated.totalZipCodes
      countyCount := aggregated.countyCount
      avgBid := avgBid
      minBid := WithTop.untop' 0 aggregated.minBid
      maxBid := WithBot.unbot' 0 aggregated.maxBid
      conversionRate := conversionRate
      connectionRate := connectionRate }

/-- Concrete county name used to witness the round-trip claim. -/
def c9county : List Char := ['A', 'd', 'a', 'm', 's']

/-- Concrete state name used to witness the round-trip claim. -/
def c9state : List Char := ['O', 'h', 'i', 'o']

/-- Concrete county used to witness the aggregation claims. -/
def c10county : CountyData :=
  { countyName := "Adams", stateName := "Ohio", zipCodes := ["45693"]
    coordinates := (0, 0)
    aggregatedStats :=
      { totalRequests := 100, totalConversions := 10, totalCallsConnected := 5
        zipCodeCount := 1, avgBid := 10, minBid := 2, maxBid := 7 } }

/-! ## src/src/lib/dma.ts : `pointInPolygon` and `pointInFeature` -/

/-- A longitude/latitude pair. -/
abbrev Point : Type := ℚ × ℚ

/-- One linear ring of a polygon. -/
abbrev LinearRing : Type := List Point

/-- GeoJSON geometry as far as `pointInFeature` inspects it: `Polygon`,
`MultiPolygon`, or any other geometry type. -/
inductive GeoGeometry where
  | polygon (coordinates : List LinearRing)
  | multiPolygon (coordinates : List (List LinearRing))
  | otherType
deriving DecidableEq

/-- A GeoJSON feature: `geometry` may be absent (`null`). -/
structure GeoFeature where
  geometry : Option GeoGeometry
deriving DecidableEq

/-- The edges `(polygon[i], polygon[j])` visited by the `pointInPolygon` loop,
where `j` is the predecessor index of `i` with wrap-around (`j` starts at
`polygon.length - 1`). -/
def polygonEdges (polygon : List Point) : List (Point × Point) :=
  match polygon.getLast? with
  | none => []
  | some z => polygon.zip (z :: polygon.dropLast)

/-- The crossing test of the `pointInPolygon` loop body:
`((yi > y) !== (yj > y)) && (x < (xj - xi) * (y - yi) / (yj - yi) + xi)`.
The guard makes `yj - yi ≠ 0`, so the (total) rational division agrees with
the JavaScript one on every edge that passes the guard. -/
def rayCrosses (p : Point) (e : Point × Point) : Bool :=
  (decide (e.1.2 > p.2) != decide (e.2.2 > p.2)) &&
    decide (p.1 < (e.2.1 - e.1.1) * (p.2 - e.1.2) / (e.2.2 - e.1.2) + e.1.1)

/-- `pointInPolygon` from dma.ts: toggle `inside` once per crossing edge. -/
def pointInPolygon (point : Point) (polygon : List Point) : Bool :=
  (polygonEdges polygon).foldl
    (fun inside e => if rayCrosses point e then !inside else inside) false

/-- The `MultiPolygon` loop of `pointInFeature`: test `polygon[0]` of each
constituent polygon in order; `none` models the `TypeError` thrown when a
constituent polygon has no rings (`polygon[0]` is `undefined`). -/
def pointInMultiPolygon (point : Point) : List (List LinearRing) → Option Bool
  | [] => some false
  | poly :: rest =>
    match poly with
    | [] => none
    | ring0 :: _ =>
      if pointInPolygon point ring0 then some true else pointInMultiPolygon point rest

/-- `pointInFeature` from dma.ts.  `none` models the `TypeError` thrown when a
`Polygon` has an empty ring list (`coords[0]` is `undefined` and
`pointInPolygon` reads `.length` of it). -/
def pointInFeature (point : Point) (feature : GeoFeature) : Option Bool :=
  match feature.geometry with
  | none => some false
  | some (.polygon coords) =>
    match coords with
    | [] => none
    | ring0 :: _ => some (pointInPolygon point ring0)
  | some (.multiPolygon coords) => pointInMultiPolygon point coords
  | some .otherType => some false

/-- Geometric well-formedness: every polygon carries at least one ring (GeoJSON
requires this; the source crashes without it). -/
def GeoFeature.wf (f : GeoFeature) : Prop :=
  match f.geometry with
  | some (.polygon coords) => coords ≠ []
  | some (.multiPolygon coords) => ∀ poly ∈ coords, poly ≠ []
  | _ => True

/-- Even-odd rule: a horizontal ray from the point crosses an odd number of
ring edges. -/
def oddCrossings (point : Point) (ring : List Point) : Prop :=
  (polygonEdges ring).countP (rayCrosses point) % 2 = 1

/-- A concrete square ring used by witnesses. -/
def squareRing : LinearRing := [(0, 0), (10, 0), (10, 10), (0, 10)]

/-- Concrete well-formed feature for the C6 witness. -/
def c6feature : GeoFeature := ⟨some (.polygon [squareRing])⟩

/-- Degenerate feature: a `Polygon` with an empty ring list (the C6
counterexample input). -/
def c6emptyPolygonFeature : GeoFeature := ⟨some (.polygon [])⟩

/-! ## src/src/hooks/useCountySelection.ts : viewport-aware lazy loading -/

/-- Viewport bounds `{ sw, ne }`. -/
structure ViewportBounds where
  sw : ℚ × ℚ
  ne : ℚ × ℚ
deriving DecidableEq

/-- The viewport argument `{ center, bounds }` of the lazy-loading functions. -/
structure ViewportInfo where
  center : ℚ × ℚ
  bounds : ViewportBounds
deriving DecidableEq

/-- `calculateDistance` computes `Math.sqrt(dx*dx + dy*dy)`; we store the
squared value so it stays rational.  Every downstream use — the `distance < 1`
threshold, the ascending sort, and the `distance || 0` default — is invariant
under the strictly monotone square root, which fixes `0` and `1`; the claim
theorems state the thresholds through `Real.sqrt` of this value. -/
def calculateDistanceSq (point viewCenter : ℚ × ℚ) : ℚ :=
  let dx := point.1 - viewCenter.1
  let dy := point.2 - viewCenter.2
  dx * dx + dy * dy

/-- `isInViewportBounds` from useCountySelection.ts: axis-aligned box test with
a fixed `padding = 0.5` degrees on each side. -/
def isInViewportBounds (point : ℚ × ℚ) (viewport : ViewportInfo) : Bool :=
  let padding : ℚ := 1/2
  decide (viewport.bounds.sw.1 - padding ≤ point.1) &&
    decide (point.1 ≤ viewport.bounds.ne.1 + padding) &&
    decide (viewport.bounds.sw.2 - padding ≤ point.2) &&
    decide (point.2 ≤ viewport.bounds.ne.2 + padding)

/-- The three priority classes of `CountyLoadingJob`. -/
inductive LoadPriority where
  | high
  | medium
  | low
deriving DecidableEq

/-- `CountyLoadingJob` from useCountySelection.ts (`distanceSq` is the square
of the job's optional `distance`, see `calculateDistanceSq`). -/
structure CountyLoadingJob where
  countyKey : String
  countyName : String
  stateName : String
  coordinates : ℚ × ℚ
  priority : LoadPriority
  distanceSq : Option ℚ
deriving DecidableEq

/-- An element of the `counties` argument of `prioritizeCounties` /
`lazyLoadCountyBoundaries`. -/
structure CountyInput where
  countyName : String
  stateName : String
  coordinates : ℚ × ℚ
deriving DecidableEq

/-- `prioritizeCounties` from useCountySelection.ts: no viewport means medium
priority and no distance; otherwise high iff inside the padded viewport and
distance below 1, medium iff inside but at distance at least 1, low iff
outside. -/
def prioritizeCounties (counties : List CountyInput) (viewport : Option ViewportInfo) :
    List CountyLoadingJob :=
  counties.map fun county =>
    match viewport with
    | none =>
      { countyKey := county.countyName ++ ", " ++ county.stateName
        countyName := county.countyName, stateName := county.stateName
        coordinates := county.coordinates, priority := .medium, distanceSq := none }
    | some vp =>
      let inViewport := isInViewportBounds county.coordinates vp
      let distanceSq := calculateDistanceSq county.coordinates vp.center
      { countyKey := county.countyName ++ ", " ++ county.stateName
        countyName := county.countyName, stateName := county.stateName
        coordinates := county.coordinates
        priority :=
          if inViewport then (if distanceSq < 1 then .high else .medium) else .low
        distanceSq := some distanceSq }

/-- `priorityOrder` from `processLoadingQueue`: `{ high: 0, medium: 1, low: 2 }`. -/
def priorityOrder : LoadPriority → ℕ
  | .high => 0
  | .medium => 1
  | .low => 2

/-- The comparator of `processLoadingQueue`'s sort, as the relation
"comparator(a,b) ≤ 0": priority first, then `(a.distance || 0) -
(b.distance || 0)` (a missing distance counts as `0`).  Comparing squared
distances is equivalent to comparing distances. -/
def jsSortLe (a b : CountyLoadingJob) : Prop :=
  priorityOrder a.priority < priorityOrder b.priority ∨
    (priorityOrder a.priority = priorityOrder b.priority ∧
      a.distanceSq.getD 0 ≤ b.distanceSq.getD 0)

instance : DecidableRel jsSortLe := fun a b => by
  unfold jsSortLe
  infer_instance

instance : IsTotal CountyLoadingJob jsSortLe :=
  ⟨fun a b => by
    unfold jsSortLe
    rcases lt_trichotomy (priorityOrder a.priority) (priorityOrder b.priority) with h | h | h
    · exact Or.inl (Or.inl h)
    · rcases le_total (a.distanceSq.getD 0) (b.distanceSq.getD 0) with hd | hd
      · exact Or.inl (Or.inr ⟨h, hd⟩)
      · exact Or.inr (Or.inr ⟨h.symm, hd⟩)
    · exact Or.inr (Or.inl h)⟩

instance : IsTrans CountyLoadingJob jsSortLe :=
  ⟨fun a b c hab hbc => by
    unfold jsSortLe at hab hbc ⊢
    rcases hab with h1 | ⟨h1, d1⟩ <;> rcases hbc with h2 | ⟨h2, d2⟩
    · exact Or.inl (h1.trans h2)
    · exact Or.inl (h2 ▸ h1)
    · exact Or.inl (h1 ▸ h2)
    · exact Or.inr ⟨h1.trans h2, d1.trans d2⟩⟩

/-- The queue snapshot sort of `processLoadingQueue`:
`[...queue].sort(comparator)`.  `Array.prototype.sort` is stable (ES2019), so
it is `List.insertionSort` with the "comparator ≤ 0" relation. -/
def sortQueue (queue : List CountyLoadingJob) : List CountyLoadingJob :=
  queue.insertionSort jsSortLe

/-- The sort key determined by the comparator: priority rank and
distance-or-0. -/
def jobSortKey (j : CountyLoadingJob) : ℕ × ℚ :=
  (priorityOrder j.priority, j.distanceSq.getD 0)

/-- The "already loaded or loading" skip guard inside `processJobBatch`,
evaluated against the snapshot of `countyBoundaries` / `loadingBoundaries`
captured by the closure at drain start. -/
def alreadyHandled (snapBoundaries snapLoading : List String) (job : CountyLoadingJob) : Bool :=
  snapBoundaries.contains job.countyKey || snapLoading.contains job.countyKey

/-- Dispatch trace of `processJobBatch`: the jobs whose `fetchCountyBoundary`
call is issued, in issue order.  `abort k` is the `AbortController` signal as
observed by the `k`-th batch-boundary check of the drain; an aborted check
breaks out of the bucket.  Returns the trace and the next check index. -/
def processJobBatch (guard : CountyLoadingJob → Bool) (abort : ℕ → Bool) (batchSize : ℕ) :
    List CountyLoadingJob → ℕ → List CountyLoadingJob × ℕ
  | [], k => ([], k)
  | j :: rest, k =>
    if abort k then ([], k + 1)
    else
      let dispatched := (j :: rest.take (batchSize - 1)).filter fun job => !guard job
      let next := processJobBatch guard abort batchSize (rest.drop (batchSize - 1)) (k + 1)
      (dispatched ++ next.1, next.2)
  termination_by jobs _ => jobs.length
  decreasing_by
    simp only [List.length_drop, List.length_cons]
    omega

/-- Dispatch trace of one drain of `processLoadingQueue`: sort the snapshot,
split into the high/medium/low buckets, and process them in that order with
batch sizes 3, 2, 1. -/
def processLoadingQueue (snapBoundaries snapLoading : List String) (abort : ℕ → Bool)
    (queue : List CountyLoadingJob) : List CountyLoadingJob :=
  if queue.isEmpty then []
  else
    let guard := alreadyHandled snapBoundaries snapLoading
    let sortedQueue := sortQueue queue
    let highPriorityJobs := sortedQueue.filter fun j => decide (j.priority = .high)
    let mediumPriorityJobs := sortedQueue.filter fun j => decide (j.priority = .medium)
    let lowPriorityJobs := sortedQueue.filter fun j => decide (j.priority = .low)
    let r1 := processJobBatch guard abort 3 highPriorityJobs 0
    let r2 := processJobBatch guard abort 2 mediumPriorityJobs r1.2
    let r3 := processJobBatch guard abort 1 lowPriorityJobs r2.2
    r1.1 ++ r2.1 ++ r3.1

/-- Concrete viewport for the C3 witness: center `(0,0)`, box `[-1,1]²`. -/
def c3viewport : ViewportInfo := ⟨(0, 0), ⟨(-1, -1), (1, 1)⟩⟩

/-- Concrete county for the C3 witness, at distance `1/2` from the center. -/
def c3county : CountyInput := ⟨"Adams", "Ohio", ((1 : ℚ)/2, 0)⟩

/-- The job produced for `c3county` under `c3viewport` (distance `1/2`, so
squared distance `1/4`): high priority. -/
def c3job : CountyLoadingJob :=
  ⟨"Adams, Ohio", "Adams", "Ohio", ((1 : ℚ)/2, 0), .high, some ((1 : ℚ)/4)⟩

/-- Medium-priority job with a (squared) distance, for the C5 counterexample. -/
def c5jobWithDistance : CountyLoadingJob :=
  ⟨"Adams, Ohio", "Adams", "Ohio", (4, 0), .medium, some 16⟩

/-- Medium-priority job without a distance (queued with no viewport), for the
C5 counterexample. -/
def c5jobNoDistance : CountyLoadingJob :=
  ⟨"Brown, Ohio", "Brown", "Ohio", (0, 0), .medium, none⟩

/-- The C5 claim's ordering predicate on one bucket: every job without a
distance comes after every job with one. -/
def missingDistanceLast (bucket : List CountyLoadingJob) : Prop :=
  bucket.Pairwise fun a b => a.distanceSq = none → b.distanceSq = none

/-! ## src/src/components/LeadsMap/index.tsx : navigation state machine -/

/-- One DMA region as the navigation handlers see it: id, bounding box
`(southwest, northeast)`, and boundary feature. -/
structure DMAData where
  id : String
  bounds : (ℚ × ℚ) × (ℚ × ℚ)
  feature : GeoFeature
deriving DecidableEq

/-- The navigation-relevant component state of `LeadsMap`:
`selectedDMA` / `isZoomedToDMA` / `showCountiesInDMA` /
`selectedCountiesInDMA` plus the selection list
`countySelection.selectionState.selectedCounties`. -/
structure NavState where
  selectedDMA : Option String
  isZoomedToDMA : Bool
  showCountiesInDMA : Bool
  selectedCountiesInDMA : List String
  selectedCounties : List String
deriving DecidableEq

/-- The `useState` initial values. -/
def initialNavState : NavState :=
  { selectedDMA := none, isZoomedToDMA := false, showCountiesInDMA := false
    selectedCountiesInDMA := [], selectedCounties := [] }

/-- The inline bounding-box pre-filter of `handleViewportChange`:
`sw[0] ≤ lng ≤ ne[0] ∧ sw[1] ≤ lat ≤ ne[1]`. -/
def centerInBounds (center : Point) (bounds : (ℚ × ℚ) × (ℚ × ℚ)) : Bool :=
  decide (bounds.1.1 ≤ center.1) && decide (center.1 ≤ bounds.2.1) &&
    decide (bounds.1.2 ≤ center.2) && decide (center.2 ≤ bounds.2.2)

/-- The DMA-search loop of `handleViewportChange`: the first DMA whose
bounding box contains the center and whose polygon contains it
(`break` fires only on a polygon hit; a box hit with a polygon miss continues
the scan).  Outer `none` propagates a `pointInFeature` crash, inner `none`
means no containing DMA. -/
def findContainingDMA (center : Point) : List DMAData → Option (Option DMAData)
  | [] => some none
  | dma :: rest =>
    if centerInBounds center dma.bounds then
      match pointInFeature center dma.feature with
      | none => none
      | some true => some (some dma)
      | some false => findContainingDMA center rest
    else findContainingDMA center rest

/-- `handleViewportChange` from LeadsMap/index.tsx, restricted to the
navigation state it mutates (the `updateViewportPriority` forwarding and the
`lazyLoadCountyBoundaries` / `cancelLazyLoading` calls do not touch these
fields).  The three `if` blocks of the source all read the pre-event flag
values (React state updates are deferred), so at most one block fires and the
branch conditions are evaluated against the entry state.  `none` models a
`pointInFeature` crash, which in the source happens before any state update
of the firing branch. -/
def handleViewportChange (dmas : List DMAData) (s : NavState) (center : Point) (zoom : ℚ) :
    Option NavState :=
  if s.isZoomedToDMA ∧ s.showCountiesInDMA ∧ zoom < 6 then
    some { s with showCountiesInDMA := false, selectedCountiesInDMA := []
                  selectedDMA := none, isZoomedToDMA := false }
  else if ¬s.isZoomedToDMA ∧ 8 ≤ zoom then
    match findContainingDMA center dmas with
    | none => none
    | some none => some s
    | some (some dma) =>
      some { s with selectedDMA := some dma.id, isZoomedToDMA := true
                    showCountiesInDMA := true }
  else if s.isZoomedToDMA ∧ 8 ≤ zoom then
    match findContainingDMA center dmas with
    | none => none
    | some (some dma) =>
      if s.selectedDMA ≠ some dma.id then
        some { s with selectedDMA := some dma.id, showCountiesInDMA := true }
      else some s
    | some none =>
      if s.selectedDMA.isSome then
        some { s with showCountiesInDMA := false, selectedCountiesInDMA := []
                      selectedDMA := none }
      else some s
  else some s

/-- `handleDMAClick` from LeadsMap/index.tsx, as the net effect of the click
handler including its `setTimeout` chain (the synchronous part hides counties
and clears `selectedCountiesInDMA`; the timers then set the DMA, the zoom flag
and re-show counties).  Clicking the already-active DMA while zoomed is a
no-op; a click on an unknown id finds no DMA and does nothing. -/
def handleDMAClick (dmas : List DMAData) (s : NavState) (dmaId : String) : NavState :=
  match dmas.find? (fun d => decide (d.id = dmaId)) with
  | none => s
  | some clickedDMA =>
    if s.isZoomedToDMA ∧ s.selectedDMA = some dmaId then s
    else
      { s with selectedDMA := some clickedDMA.id, isZoomedToDMA := true
               showCountiesInDMA := true, selectedCountiesInDMA := [] }

/-- `handleResetDMAZoom` from LeadsMap/index.tsx: clear the active DMA and
both flags (the map animation does not touch state). -/
def handleResetDMAZoom (s : NavState) : NavState :=
  { s with selectedDMA := none, isZoomedToDMA := false, showCountiesInDMA := false
           selectedCountiesInDMA := [] }

/-- `selectCounty`'s selection toggle from useCountySelection.ts. -/
def toggleSelectedCounty (selected : List String) (countyName : String) : List String :=
  if selected.contains countyName then selected.filter (fun n => n ≠ countyName)
  else selected ++ [countyName]

/-- The events driving the map session: viewport changes, programmatic DMA
clicks, the reset action, and the explicit selection operations. -/
inductive MapEvent where
  | viewportChange (center : Point) (zoom : ℚ)
  | dmaClick (dmaId : String)
  | resetDMAZoom
  | selectCounty (countyName : String)
  | deselectCounty (countyName : String)
  | clearSelection
deriving DecidableEq

/-- The navigation events among `MapEvent`s (claim C8's "Navigation State
transitions"). -/
def isNavigationEvent : MapEvent → Prop
  | .viewportChange _ _ => True
  | .dmaClick _ => True
  | .resetDMAZoom => True
  | _ => False

/-- One event step of the map session. -/
def navStep (dmas : List DMAData) (s : NavState) : MapEvent → Option NavState
  | .viewportChange center zoom => handleViewportChange dmas s center zoom
  | .dmaClick dmaId => some (handleDMAClick dmas s dmaId)
  | .resetDMAZoom => some (handleResetDMAZoom s)
  | .selectCounty n => some { s with selectedCounties := toggleSelectedCounty s.selectedCounties n }
  | .deselectCounty n => some { s with selectedCounties := s.selectedCounties.filter (fun m => m ≠ n) }
  | .clearSelection => some { s with selectedCounties := [] }

/-- Run a sequence of events from a state. -/
def navRun (dmas : List DMAData) : NavState → List MapEvent → Option NavState
  | s, [] => some s
  | s, e :: es =>
    match navStep dmas s e with
    | none => none
    | some s' => navRun dmas s' es

/-- The claimed invariant chain of C1:
`childRegionsVisible ⟹ isDrilledIn ⟹ activeParentRegionId ≠ none`. -/
def navInvariantChain (s : NavState) : Prop :=
  (s.showCountiesInDMA = true → s.isZoomedToDMA = true) ∧
    (s.isZoomedToDMA = true → s.selectedDMA ≠ none)

/-- The invariant that actually holds (C1 amended): child regions visible
implies drilled in AND an active parent region. -/
def navInvariant (s : NavState) : Prop :=
  s.showCountiesInDMA = true → s.isZoomedToDMA = true ∧ s.selectedDMA ≠ none

/-- The single square test DMA used by the concrete navigation runs. -/
def dmaA : DMAData := ⟨"A", ((0, 0), (10, 10)), ⟨some (.polygon [squareRing])⟩⟩

/-- C1 counterexample event trace: zoom into the middle of `dmaA`, then pan
(still at zoom 9) to a center outside every DMA. -/
def c1events : List MapEvent :=
  [.viewportChange (5, 5) 9, .viewportChange (50, 50) 9]

/-- The state reached by `c1events`: still drilled in, but no active DMA. -/
def c1state : NavState :=
  { selectedDMA := none, isZoomedToDMA := true, showCountiesInDMA := false
    selectedCountiesInDMA := [], selectedCounties := [] }

/-- The state after the first event of `c1events` (used by the C1 witness). -/
def c1stateMid : NavState :=
  { selectedDMA := some "A", isZoomedToDMA := true, showCountiesInDMA := true
    selectedCountiesInDMA := [], selectedCounties := [] }

/-- Concrete start state for the C8 witness: drilled into a DMA with county
"Alpha" selected. -/
def c8start : NavState :=
  { selectedDMA := some "A", isZoomedToDMA := true, showCountiesInDMA := true
    selectedCountiesInDMA := [], selectedCounties := ["Alpha"] }

/-! ## The boundary-fetch guard as an event-loop machine (C2)

`selectCounty`, `preloadCountyBoundary` and the drain's `processJobBatch` all
guard a fetch with
`!countyBoundaries.has(key) && !loadingBoundaries.has(key)`, where both sets
are React state captured by the enclosing closure.  A `setCountyBoundaries` /
`setLoadingBoundaries` call commits a functional update to the real state but
does not change the `Map` / `Set` objects the current closures hold; the
closures only see fresh state after a re-render.  We model this with a
committed state (`boundaries` / `loading`), a closure snapshot
(`snapBoundaries` / `snapLoading`) refreshed by an explicit `render` event,
and a log of dispatched `fetchCountyBoundary` calls. -/

structure BoundaryFetchState where
  boundaries : List String
  loading : List String
  snapBoundaries : List String
  snapLoading : List String
  fetchLog : List String
deriving DecidableEq

/-- Fresh hook state: nothing loaded, nothing loading, snapshots in sync. -/
def initialFetchState : BoundaryFetchState := ⟨[], [], [], [], []⟩

/-- Events of the fetch machine: a guarded submission of a key (the
synchronous prefix of `selectCounty` / `preloadCountyBoundary` / a drain job,
up to its first `await`), a React re-render committing fresh state into the
closures, and the settlement of an in-flight fetch. -/
inductive FetchEvent where
  | submit (countyKey : String)
  | render
  | resolve (countyKey : String) (success : Bool)
deriving DecidableEq

/-- One event of the fetch machine.  `submit` runs the source guard against
the closure snapshot and, when it passes, marks the key loading and dispatches
`fetchCountyBoundary` (appending to `fetchLog`). -/
def fetchStep (s : BoundaryFetchState) : FetchEvent → BoundaryFetchState
  | .submit key =>
    if s.snapBoundaries.contains key ∨ s.snapLoading.contains key then s
    else { s with loading := s.loading ++ [key], fetchLog := s.fetchLog ++ [key] }
  | .render => { s with snapBoundaries := s.boundaries, snapLoading := s.loading }
  | .resolve key success =>
    { s with loading := s.loading.filter (fun k => k ≠ key)
             boundaries := if success then s.boundaries ++ [key] else s.boundaries }

/-- Run the fetch machine over a list of events. -/
def fetchRun (s : BoundaryFetchState) (events : List FetchEvent) : BoundaryFetchState :=
  events.foldl fetchStep s

/-! ## `getSelectedCountiesStats` from useCountySelection.ts (C7) -/

/-- The filter at the top of `getSelectedCountiesStats`: the counties of the
supplied list whose name is currently selected. -/
def selectedData (selectedCounties : List String) (countyData : List CountyData) :
    List CountyData :=
  countyData.filter fun county => selectedCounties.contains county.countyName

/-- Return shape of `getSelectedCountiesStats`: the spread accumulator
(`minBid` / `maxBid` kept as-is, with their `Infinity` / `-Infinity` seeds
modelled by `⊤` / `⊥` — this function, unlike `aggregateMultipleCounties`,
does not coerce them) plus the three derived rates. -/
structure SelectedCountiesStats where
  totalRequests : ℚ
  totalConversions : ℚ
  totalCallsConnected : ℚ
  totalZipCodes : ℚ
  countyCount : ℕ
  avgBidSum : ℚ
  minBid : WithTop ℚ
  maxBid : WithBot ℚ
  avgBid : ℚ
  conversionRate : ℚ
  connectionRate : ℚ
deriving DecidableEq

/-- `getSelectedCountiesStats` from useCountySelection.ts: `null` when no
selected county is present in the list; otherwise the reduce (identical to the
one in `aggregateMultipleCounties`) plus `avgBid = avgBidSum / countyCount`
and the guarded rates. -/
def getSelectedCountiesStats (selectedCounties : List String) (countyData : List CountyData) :
    Option SelectedCountiesStats :=
  if (selectedData selectedCounties countyData).isEmpty then none
  else
    let a := (selectedData selectedCounties countyData).foldl countiesReduceStep countiesReduceInit
    some
      { totalRequests := a.totalRequests, totalConversions := a.totalConversions
        totalCallsConnected := a.totalCallsConnected, totalZipCodes := a.totalZipCodes
        countyCount := a.countyCount, avgBidSum := a.avgBidSum
        minBid := a.minBid, maxBid := a.maxBid
        avgBid := a.avgBidSum / (a.countyCount : ℚ)
        conversionRate :=
          if 0 < a.totalRequests then a.totalConversions / a.totalRequests * 100 else 0
        connectionRate :=
          if 0 < a.totalRequests then a.totalCallsConnected / a.totalRequests * 100 else 0 }

/-- County "Alpha" of the C7 witness (100 requests, average bid 10). -/
def c7alpha : CountyData :=
  { countyName := "Alpha", stateName := "Ohio", zipCodes := [], coordinates := (0, 0)
    aggregatedStats :=
      { totalRequests := 100, totalConversions := 0, totalCallsConnected := 0
        zipCodeCount := 0, avgBid := 10, minBid := 1, maxBid := 2 } }

/-- County "Beta" of the C7 witness (200 requests, average bid 20). -/
def c7beta : CountyData :=
  { countyName := "Beta", stateName := "Ohio", zipCodes := [], coordinates := (0, 0)
    aggregatedStats :=
      { totalRequests := 200, totalConversions := 0, totalCallsConnected := 0
        zipCodeCount := 0, avgBid := 20, minBid := 3, maxBid := 4 } }

/-! ## Lemmas about `splitCS` -/

theorem splitCS_of_sep_free :
    ∀ l : List Char, ¬ ([',', ' '] <:+: l) → splitCS l = [l] := by
  intro l
  induction l using splitCS.induct with
  | case1 => intro _; rfl
  | case2 c => intro _; rfl
  | case3 c d rest h ih =>
    intro hinf
    exact absurd ⟨[], rest, by simp [h.1, h.2]⟩ hinf
  | case4 c d rest h ih =>
    intro hinf
    have htail : ¬ ([',', ' '] <:+: d :: rest) := fun hi =>
      hinf (hi.trans (List.suffix_cons c (d :: rest)).isInfix)
    simp only [splitCS, if_neg h, ih htail, consHead]

theorem splitCS_append_sep :
    ∀ a b : List Char, ¬ ([',', ' '] <:+: a) →
      splitCS (a ++ ',' :: ' ' :: b) = a :: splitCS b := by
  intro a
  induction a with
  | nil =>
    intro b _
    simp [splitCS]
  | cons c a' ih =>
    intro b hinf
    have htail : ¬ ([',', ' '] <:+: a') := fun hi =>
      hinf (hi.trans (List.suffix_cons c a').isInfix)
    cases a' with
    | nil =>
      have hcond : ¬ (c = ',' ∧ (',' : Char) = ' ') := by
        rintro ⟨-, h⟩; exact absurd h (by decide)
      simp only [List.nil_append, List.cons_append, splitCS, if_neg hcond]
      simp [consHead]
    | cons e a'' =>
      have hcond : ¬ (c = ',' ∧ e = ' ') := fun hce =>
        hinf ⟨[], a'', by simp [hce.1, hce.2]⟩
      simp only [List.cons_append, splitCS, if_neg hcond, List.append_eq]
      have := ih b htail
      simp only [List.cons_append, List.append_eq] at this
      rw [this]
      rfl

/-! ## Fold lemmas for the shared counties reducer -/

theorem foldl_countiesReduceStep_minBid :
    ∀ (l : List CountyData) (acc : CountiesReduceAcc),
      (l.foldl countiesReduceStep acc).minBid
        = (l.map (fun c => (c.aggregatedStats.minBid : WithTop ℚ))).foldl min acc.minBid := by
  intro l
  induction l with
  | nil => intro acc; rfl
  | cons c l ih => intro acc; simp [List.foldl_cons, ih, countiesReduceStep]

theorem foldl_countiesReduceStep_maxBid :
    ∀ (l : List CountyData) (acc : CountiesReduceAcc),
      (l.foldl countiesReduceStep acc).maxBid
        = (l.map (fun c => (c.aggregatedStats.maxBid : WithBot ℚ))).foldl max acc.maxBid := by
  intro l
  induction l with
  | nil => intro acc; rfl
  | cons c l ih => intro acc; simp [List.foldl_cons, ih, countiesReduceStep]

theorem foldl_countiesReduceStep_totalRequests :
    ∀ (l : List CountyData) (acc : CountiesReduceAcc),
      (l.foldl countiesReduceStep acc).totalRequests
        = acc.totalRequests + (l.map (fun c => c.aggregatedStats.totalRequests)).sum := by
  intro l
  induction l with
  | nil => intro acc; simp
  | cons c l ih => intro acc; simp [List.foldl_cons, ih, countiesReduceStep]; ring

theorem foldl_countiesReduceStep_totalConversions :
    ∀ (l : List CountyData) (acc : CountiesReduceAcc),
      (l.foldl countiesReduceStep acc).totalConversions
        = acc.totalConversions + (l.map (fun c => c.aggregatedStats.totalConversions)).sum := by
  intro l
  induction l with
  | nil => intro acc; simp
  | cons c l ih => intro acc; simp [List.foldl_cons, ih, countiesReduceStep]; ring

theorem foldl_countiesReduceStep_totalCallsConnected :
    ∀ (l : List CountyData) (acc : CountiesReduceAcc),
      (l.foldl countiesReduceStep acc).totalCallsConnected
        = acc.totalCallsConnected + (l.map (fun c => c.aggregatedStats.totalCallsConnected)).sum := by
  intro l
  induction l with
  | nil => intro acc; simp
  | cons c l ih => intro acc; simp [List.foldl_cons, ih, countiesReduceStep]; ring

theorem foldl_countiesReduceStep_avgBidSum :
    ∀ (l : List CountyData) (acc : CountiesReduceAcc),
      (l.foldl countiesReduceStep acc).avgBidSum
        = acc.avgBidSum + (l.map (fun c => c.aggregatedStats.avgBid)).sum := by
  intro l
  induction l with
  | nil => intro acc; simp
  | cons c l ih => intro acc; simp [List.foldl_cons, ih, countiesReduceStep]; ring

theorem foldl_countiesReduceStep_countyCount :
    ∀ (l : List CountyData) (acc : CountiesReduceAcc),
      (l.foldl countiesReduceStep acc).countyCount = acc.countyCount + l.length := by
  intro l
  induction l with
  | nil => intro acc; simp
  | cons c l ih => intro acc; simp [List.foldl_cons, ih, countiesReduceStep]; ring

/-! ## Generic fold-min / fold-max lemmas -/

theorem foldl_min_le_init {α : Type} [LinearOrder α] :
    ∀ (l : List α) (a : α), l.foldl min a ≤ a := by
  intro l
  induction l with
  | nil => intro a; simp
  | cons c l ih =>
    intro a
    calc l.foldl min (min a c) ≤ min a c := ih (min a c)
    _ ≤ a := min_le_left a c

theorem foldl_min_le_mem {α : Type} [LinearOrder α] :
    ∀ (l : List α) (a x : α), x ∈ l → l.foldl min a ≤ x := by
  intro l
  induction l with
  | nil => intro a x hx; cases hx
  | cons c l ih =>
    intro a x hx
    rcases List.mem_cons.mp hx with rfl | hx
    · calc l.foldl min (min a x) ≤ min a x := foldl_min_le_init l (min a x)
      _ ≤ x := min_le_right a x
    · exact ih (min a c) x hx

theorem foldl_min_eq_init_or_mem {α : Type} [LinearOrder α] :
    ∀ (l : List α) (a : α), l.foldl min a = a ∨ ∃ x ∈ l, l.foldl min a = x := by
  intro l
  induction l with
  | nil => intro a; exact Or.inl rfl
  | cons c l ih =>
    intro a
    rw [List.foldl_cons]
    rcases ih (min a c) with h | ⟨x, hx, h⟩
    · rcases min_choice a c with hm | hm
      · exact Or.inl (h.trans hm)
      · exact Or.inr ⟨c, List.mem_cons_self c l, h.trans hm⟩
    · exact Or.inr ⟨x, List.mem_cons_of_mem c hx, h⟩

theorem foldl_max_init_le {α : Type} [LinearOrder α] :
    ∀ (l : List α) (a : α), a ≤ l.foldl max a := by
  intro l
  induction l with
  | nil => intro a; simp
  | cons c l ih =>
    intro a
    calc a ≤ max a c := le_max_left a c
    _ ≤ l.foldl max (max a c) := ih (max a c)

theorem foldl_max_mem_le {α : Type} [LinearOrder α] :
    ∀ (l : List α) (a x : α), x ∈ l → x ≤ l.foldl max a := by
  intro l
  induction l with
  | nil => intro a x hx; cases hx
  | cons c l ih =>
    intro a x hx
    rcases List.mem_cons.mp hx with rfl | hx
    · calc x ≤ max a x := le_max_right a x
      _ ≤ l.foldl max (max a x) := foldl_max_init_le l (max a x)
    · exact ih (max a c) x hx

theorem foldl_max_eq_init_or_mem {α : Type} [LinearOrder α] :
    ∀ (l : List α) (a : α), l.foldl max a = a ∨ ∃ x ∈ l, l.foldl max a = x := by
  intro l
  induction l with
  | nil => intro a; exact Or.inl rfl
  | cons c l ih =>
    intro a
    rw [List.foldl_cons]
    rcases ih (max a c) with h | ⟨x, hx, h⟩
    · rcases max_choice a c with hm | hm
      · exact Or.inl (h.trans hm)
      · exact Or.inr ⟨c, List.mem_cons_self c l, h.trans hm⟩
    · exact Or.inr ⟨x, List.mem_cons_of_mem c hx, h⟩

/-! ## Claim theorems for counties.ts -/

/-- C9: County-name round-trip.  For every county name and state name that
contain no occurrence of the substring `", "`,
`parseCountyName (formatCountyName county state)` returns exactly
`(county, state)`; and every input whose `", "`-split does not have exactly
two parts parses to `none`. -/
theorem parseCountyName_formatCountyName_roundTrip :
    (∀ county state : List Char,
        ¬ ([',', ' '] <:+: county) → ¬ ([',', ' '] <:+: state) →
        parseCountyName (formatCountyName county state) = some (county, state)) ∧
    (∀ input : List Char, (splitCS input).length ≠ 2 → parseCountyName input = none) := by
  constructor
  · intro county state hc hs
    have h1 : splitCS (county ++ ',' :: ' ' :: state) = county :: splitCS state :=
      splitCS_append_sep county state hc
    rw [splitCS_of_sep_free state hs] at h1
    unfold parseCountyName formatCountyName
    rw [h1]
  · intro input h
    unfold parseCountyName
    cases hs : splitCS input with
    | nil => rfl
    | cons x xs =>
      cases xs with
      | nil => rfl
      | cons y ys =>
        cases ys with
        | nil => exact absurd (by rw [hs]; rfl) h
        | cons z zs => rfl

/-- Witness for C9 at the concrete pair `("Adams", "Ohio")`. -/
theorem parseCountyName_formatCountyName_roundTrip_witness :
    ¬ ([',', ' '] <:+: c9county) ∧ ¬ ([',', ' '] <:+: c9state) ∧
      parseCountyName (formatCountyName c9county c9state) = some (c9county, c9state) :=
  ⟨by decide, by decide,
    parseCountyName_formatCountyName_roundTrip.1 c9county c9state (by decide) (by decide)⟩

/-- C10: `aggregateMultipleCounties []` is the all-zero record (in particular
`minBid`, `maxBid`, `conversionRate` and `connectionRate` are `0`), and for
every non-empty list `minBid` / `maxBid` are the true minimum / maximum of the
per-county `minBid` / `maxBid` values. -/
theorem aggregateMultipleCounties_spec :
    aggregateMultipleCounties [] = zeroAggregateResult ∧
    ∀ counties : List CountyData, counties ≠ [] →
      (∃ c ∈ counties, (aggregateMultipleCounties counties).minBid = c.aggregatedStats.minBid) ∧
      (∀ c ∈ counties, (aggregateMultipleCounties counties).minBid ≤ c.aggregatedStats.minBid) ∧
      (∃ c ∈ counties, (aggregateMultipleCounties counties).maxBid = c.aggregatedStats.maxBid) ∧
      (∀ c ∈ counties, c.aggregatedStats.maxBid ≤ (aggregateMultipleCounties counties).maxBid) := by
  constructor
  · rfl
  · intro counties hne
    obtain ⟨c0, hc0⟩ : ∃ c, c ∈ counties := by
      cases counties with
      | nil => exact absurd rfl hne
      | cons a l => exact ⟨a, List.mem_cons_self a l⟩
    have hempty : counties.isEmpty = false := by
      cases counties with
      | nil => exact absurd rfl hne
      | cons a l => rfl
    have hminproj : (aggregateMultipleCounties counties).minBid
        = WithTop.untop' 0 ((counties.foldl countiesReduceStep countiesReduceInit).minBid) := by
      simp [aggregateMultipleCounties, hempty]
    have hmaxproj : (aggregateMultipleCounties counties).maxBid
        = WithBot.unbot' 0 ((counties.foldl countiesReduceStep countiesReduceInit).maxBid) := by
      simp [aggregateMultipleCounties, hempty]
    have hminfold : (counties.foldl countiesReduceStep countiesReduceInit).minBid
        = (counties.map (fun c => (c.aggregatedStats.minBid : WithTop ℚ))).foldl min ⊤ :=
      foldl_countiesReduceStep_minBid counties countiesReduceInit
    have hmaxfold : (counties.foldl countiesReduceStep countiesReduceInit).maxBid
        = (counties.map (fun c => (c.aggregatedStats.maxBid : WithBot ℚ))).foldl max ⊥ :=
      foldl_countiesReduceStep_maxBid counties countiesReduceInit
    have hminmem : ∃ c ∈ counties,
        (counties.map (fun c => (c.aggregatedStats.minBid : WithTop ℚ))).foldl min ⊤
          = (c.aggregatedStats.minBid : WithTop ℚ) := by
      rcases foldl_min_eq_init_or_mem
          (counties.map (fun c => (c.aggregatedStats.minBid : WithTop ℚ))) ⊤ with h | ⟨x, hx, h⟩
      · exfalso
        have hle := foldl_min_le_mem
          (counties.map (fun c => (c.aggregatedStats.minBid : WithTop ℚ))) ⊤
          (c0.aggregatedStats.minBid : WithTop ℚ) (List.mem_map_of_mem _ hc0)
        rw [h] at hle
        exact WithTop.coe_ne_top (top_le_iff.mp hle)
      · rcases List.mem_map.mp hx with ⟨c, hc, rfl⟩
        exact ⟨c, hc, h⟩
    have hmaxmem : ∃ c ∈ counties,
        (counties.map (fun c => (c.aggregatedStats.maxBid : WithBot ℚ))).foldl max ⊥
          = (c.aggregatedStats.maxBid : WithBot ℚ) := by
      rcases foldl_max_eq_init_or_mem
          (counties.map (fun c => (c.aggregatedStats.maxBid : WithBot ℚ))) ⊥ with h | ⟨x, hx, h⟩
      · exfalso
        have hle := foldl_max_mem_le
          (counties.map (fun c => (c.aggregatedStats.maxBid : WithBot ℚ))) ⊥
          (c0.aggregatedStats.maxBid : WithBot ℚ) (List.mem_map_of_mem _ hc0)
        rw [h] at hle
        exact WithBot.coe_ne_bot (le_bot_iff.mp hle)
      · rcases List.mem_map.mp hx with ⟨c, hc, rfl⟩
        exact ⟨c, hc, h⟩
    obtain ⟨cm, hcm, hFmin⟩ := hminmem
    obtain ⟨cM, hcM, hFmax⟩ := hmaxmem
    have hminval : (aggregateMultipleCounties counties).minBid = cm.aggregatedStats.minBid := by
      rw [hminproj, hminfold, hFmin, WithTop.untop'_coe]
    have hmaxval : (aggregateMultipleCounties counties).maxBid = cM.aggregatedStats.maxBid := by
      rw [hmaxproj, hmaxfold, hFmax, WithBot.unbot'_coe]
    refine ⟨⟨cm, hcm, hminval⟩, ?_, ⟨cM, hcM, hmaxval⟩, ?_⟩
    · intro c hc
      have hle := foldl_min_le_mem
        (counties.map (fun c => (c.aggregatedStats.minBid : WithTop ℚ))) ⊤
        (c.aggregatedStats.minBid : WithTop ℚ) (List.mem_map_of_mem _ hc)
      rw [hFmin] at hle
      rw [hminval]
      exact_mod_cast hle
    · intro c hc
      have hle := foldl_max_mem_le
        (counties.map (fun c => (c.aggregatedStats.maxBid : WithBot ℚ))) ⊥
        (c.aggregatedStats.maxBid : WithBot ℚ) (List.mem_map_of_mem _ hc)
      rw [hFmax] at hle
      rw [hmaxval]
      exact_mod_cast hle

/-- Witness for C10 at a concrete singleton list. -/
theorem aggregateMultipleCounties_spec_witness :
    ([c10county] ≠ ([] : List CountyData)) ∧
      (aggregateMultipleCounties [c10county]).minBid = 2 ∧
      (aggregateMultipleCounties [c10county]).maxBid = 7 := by
  refine ⟨by decide, ?_, ?_⟩
  · obtain ⟨⟨c, hc, heq⟩, -, -, -⟩ :=
      aggregateMultipleCounties_spec.2 [c10county] (by decide)
    rcases List.mem_singleton.mp hc with rfl
    rw [heq]; rfl
  · obtain ⟨-, -, ⟨c, hc, heq⟩, -⟩ :=
      aggregateMultipleCounties_spec.2 [c10county] (by decide)
    rcases List.mem_singleton.mp hc with rfl
    rw [heq]; rfl

/-! ## Geometry lemmas and claim theorems for dma.ts -/

theorem foldl_toggle_eq {α : Type} (p : α → Bool) :
    ∀ (l : List α) (b : Bool),
      l.foldl (fun inside e => if p e then !inside else inside) b
        = (b != decide (l.countP p % 2 = 1)) := by
  intro l
  induction l with
  | nil =>
    intro b
    simp
  | cons e l ih =>
    intro b
    rw [List.foldl_cons, ih, List.countP_cons]
    cases hp : p e
    · simp
    · have h2 : (l.countP p + 1) % 2 = 1 ↔ ¬(l.countP p % 2 = 1) := by omega
      have hdec : decide ((l.countP p + 1) % 2 = 1) = !decide (l.countP p % 2 = 1) := by
        rw [decide_eq_decide.mpr h2, decide_not]
      simp only [hp, if_pos, if_true]
      rw [hdec]
      generalize decide (l.countP p % 2 = 1) = d
      cases b <;> cases d <;> rfl

theorem pointInPolygon_iff_oddCrossings (point : Point) (ring : List Point) :
    pointInPolygon point ring = true ↔ oddCrossings point ring := by
  unfold pointInPolygon oddCrossings
  rw [foldl_toggle_eq]
  cases hd : decide ((polygonEdges ring).countP (rayCrosses point) % 2 = 1)
  · simpa using of_decide_eq_false hd
  · simpa using of_decide_eq_true hd

theorem pointInMultiPolygon_spec (point : Point) :
    ∀ coords : List (List LinearRing), (∀ poly ∈ coords, poly ≠ []) →
      ∃ b, pointInMultiPolygon point coords = some b ∧
        (b = true ↔ ∃ poly ∈ coords, oddCrossings point (poly.headD [])) := by
  intro coords
  induction coords with
  | nil =>
    intro _
    exact ⟨false, rfl, by simp⟩
  | cons poly rest ih =>
    intro hwf
    obtain ⟨ring0, rings, rfl⟩ : ∃ r rs, poly = r :: rs := by
      cases hp : poly with
      | nil => exact absurd hp (hwf poly (List.mem_cons_self poly rest))
      | cons r rs => exact ⟨r, rs, rfl⟩
    by_cases hin : pointInPolygon point ring0 = true
    · refine ⟨true, ?_, ?_⟩
      · simp [pointInMultiPolygon, hin]
      · simp only [true_iff]
        exact ⟨ring0 :: rings, List.mem_cons_self _ rest,
          by simpa using (pointInPolygon_iff_oddCrossings point ring0).mp hin⟩
    · obtain ⟨b, hb, hbiff⟩ := ih (fun q hq => hwf q (List.mem_cons_of_mem _ hq))
      refine ⟨b, ?_, ?_⟩
      · simp [pointInMultiPolygon, hin, hb]
      · rw [hbiff]
        constructor
        · rintro ⟨q, hq, hodd⟩
          exact ⟨q, List.mem_cons_of_mem _ hq, hodd⟩
        · rintro ⟨q, hq, hodd⟩
          rcases List.mem_cons.mp hq with rfl | hq
          · exact absurd ((pointInPolygon_iff_oddCrossings point ring0).mpr
              (by simpa using hodd)) hin
          · exact ⟨q, hq, hodd⟩

/-- C6 counterexample: on a `Polygon` feature with an empty ring list the
source function does not return `false` — it throws (modelled by `none`,
since `coords[0]` is `undefined` and `pointInPolygon` reads its `.length`).
This falsifies the claim's "the function never throws". -/
theorem pointInFeature_throws_on_empty_polygon :
    pointInFeature (0, 0) c6emptyPolygonFeature = none ∧
      ∀ b : Bool, pointInFeature (0, 0) c6emptyPolygonFeature ≠ some b := by
  exact ⟨rfl, fun b h => Option.noConfusion h⟩

/-- C6 (amended): for every point and every feature whose polygons all carry
at least one ring, `pointInFeature` never throws and returns: for a `Polygon`,
the even-odd ray-casting result on the first (exterior) ring only; for a
`MultiPolygon`, true iff some constituent polygon's exterior ring contains the
point; `false` for a missing geometry or any other geometry type.  (Without
the ring hypothesis the source throws on `coords[0]`, see the
counterexample.) -/
theorem pointInFeature_spec (point : Point) (f : GeoFeature) (hwf : f.wf) :
    ∃ b, pointInFeature point f = some b ∧
      (f.geometry = none → b = false) ∧
      (∀ coords, f.geometry = some (.polygon coords) →
        (b = true ↔ oddCrossings point (coords.headD []))) ∧
      (∀ coords, f.geometry = some (.multiPolygon coords) →
        (b = true ↔ ∃ poly ∈ coords, oddCrossings point (poly.headD []))) ∧
      (f.geometry = some .otherType → b = false) := by
  match hg : f.geometry with
  | none =>
    refine ⟨false, ?_, fun _ => rfl, ?_, ?_, fun _ => rfl⟩
    · simp [pointInFeature, hg]
    · intro coords hco; simp at hco
    · intro coords hco; simp at hco
  | some (.polygon coords) =>
    have hne : coords ≠ [] := by
      unfold GeoFeature.wf at hwf
      rw [hg] at hwf
      exact hwf
    obtain ⟨ring0, rings, rfl⟩ : ∃ r rs, coords = r :: rs := by
      cases hc : coords with
      | nil => exact absurd hc hne
      | cons r rs => exact ⟨r, rs, rfl⟩
    refine ⟨pointInPolygon point ring0, ?_, ?_, ?_, ?_, ?_⟩
    · simp [pointInFeature, hg]
    · intro h; simp at h
    · intro coords' hco
      injection hco with hco
      injection hco with hco
      subst hco
      simpa using pointInPolygon_iff_oddCrossings point ring0
    · intro coords' hco; simp at hco
    · intro h; simp at h
  | some (.multiPolygon coords) =>
    have hne : ∀ poly ∈ coords, poly ≠ [] := by
      unfold GeoFeature.wf at hwf
      rw [hg] at hwf
      exact hwf
    obtain ⟨b, hb, hbiff⟩ := pointInMultiPolygon_spec point coords hne
    refine ⟨b, ?_, ?_, ?_, ?_, ?_⟩
    · simp [pointInFeature, hg, hb]
    · intro h; simp at h
    · intro coords' hco; simp at hco
    · intro coords' hco
      injection hco with hco
      injection hco with hco
      subst hco
      exact hbiff
    · intro h; simp at h
  | some .otherType =>
    refine ⟨false, ?_, fun _ => rfl, ?_, ?_, fun _ => rfl⟩
    · simp [pointInFeature, hg]
    · intro coords hco; simp at hco
    · intro coords hco; simp at hco

/-- Witness for C6 (amended) at a concrete square polygon containing `(5,5)`. -/
theorem pointInFeature_spec_witness :
    c6feature.wf ∧
      ∃ b, pointInFeature (5, 5) c6feature = some b ∧
        (c6feature.geometry = none → b = false) ∧
        (∀ coords, c6feature.geometry = some (.polygon coords) →
          (b = true ↔ oddCrossings (5, 5) (coords.headD []))) ∧
        (∀ coords, c6feature.geometry = some (.multiPolygon coords) →
          (b = true ↔ ∃ poly ∈ coords, oddCrossings (5, 5) (poly.headD []))) ∧
        (c6feature.geometry = some .otherType → b = false) :=
  ⟨by simp [c6feature, GeoFeature.wf],
    pointInFeature_spec (5, 5) c6feature (by simp [c6feature, GeoFeature.wf])⟩

/-! ## Lazy-loading lemmas and claim theorems -/

theorem sqrt_ratCast_lt_one_iff (q : ℚ) : Real.sqrt (q : ℝ) < 1 ↔ q < 1 := by
  rw [Real.sqrt_lt' one_pos, one_pow]
  exact_mod_cast Iff.rfl

/-- C3: priority classification of `prioritizeCounties`.  With a viewport, a
job is high iff its point is inside the 0.5-degree-padded viewport box and its
Euclidean distance to the viewport center is strictly below 1; medium iff
inside the padded box at distance at least 1; low iff outside the box; its
stored distance is the distance to the center.  Without a viewport every job
is medium with no distance. -/
theorem prioritizeCounties_spec :
    (∀ (counties : List CountyInput) (vp : ViewportInfo) (job : CountyLoadingJob),
        job ∈ prioritizeCounties counties (some vp) →
        job.distanceSq = some (calculateDistanceSq job.coordinates vp.center) ∧
        (job.priority = .high ↔ isInViewportBounds job.coordinates vp = true ∧
          Real.sqrt ((calculateDistanceSq job.coordinates vp.center : ℚ) : ℝ) < 1) ∧
        (job.priority = .medium ↔ isInViewportBounds job.coordinates vp = true ∧
          1 ≤ Real.sqrt ((calculateDistanceSq job.coordinates vp.center : ℚ) : ℝ)) ∧
        (job.priority = .low ↔ isInViewportBounds job.coordinates vp = false)) ∧
    (∀ (counties : List CountyInput) (job : CountyLoadingJob),
        job ∈ prioritizeCounties counties none →
        job.priority = .medium ∧ job.distanceSq = none) := by
  constructor
  · intro counties vp job hmem
    unfold prioritizeCounties at hmem
    rcases List.mem_map.mp hmem with ⟨county, hcounty, rfl⟩
    have hbridge := sqrt_ratCast_lt_one_iff (calculateDistanceSq county.coordinates vp.center)
    by_cases hiv : isInViewportBounds county.coordinates vp = true
    · by_cases hds : calculateDistanceSq county.coordinates vp.center < 1
      · refine ⟨rfl, ?_, ?_, ?_⟩
        · simp [hiv, hds, hbridge]
        · simp [hiv, hds, hbridge, not_le.mpr (hbridge.mpr hds)]
        · simp [hiv, hds]
      · refine ⟨rfl, ?_, ?_, ?_⟩
        · simp [hiv, hds, hbridge]
        · simp [hiv, hds, not_lt.mp (fun h => hds (hbridge.mp h)), not_lt.mp hds]
        · simp [hiv, hds]
    · have hiv' : isInViewportBounds county.coordinates vp = false :=
        Bool.not_eq_true _ ▸ eq_false_of_ne_true hiv
      refine ⟨rfl, ?_, ?_, ?_⟩
      · simp [hiv']
      · simp [hiv']
      · simp [hiv']
  · intro counties job hmem
    unfold prioritizeCounties at hmem
    rcases List.mem_map.mp hmem with ⟨county, hcounty, rfl⟩
    exact ⟨rfl, rfl⟩

/-- Witness for C3: a concrete county half a degree from the viewport center
is classified high. -/
theorem prioritizeCounties_spec_witness :
    c3job ∈ prioritizeCounties [c3county] (some c3viewport) ∧
      c3job.distanceSq = some (calculateDistanceSq c3job.coordinates c3viewport.center) ∧
      (c3job.priority = .high ↔ isInViewportBounds c3job.coordinates c3viewport = true ∧
        Real.sqrt ((calculateDistanceSq c3job.coordinates c3viewport.center : ℚ) : ℝ) < 1) := by
  have hlist : prioritizeCounties [c3county] (some c3viewport) = [c3job] := by
    simp only [prioritizeCounties, List.map, c3county, c3viewport, c3job,
      isInViewportBounds, calculateDistanceSq]
    norm_num
    rfl
  have hmem : c3job ∈ prioritizeCounties [c3county] (some c3viewport) := by
    rw [hlist]
    exact List.mem_singleton.mpr rfl
  exact ⟨hmem, (prioritizeCounties_spec.1 [c3county] c3viewport c3job hmem).1,
    (prioritizeCounties_spec.1 [c3county] c3viewport c3job hmem).2.1⟩

theorem processJobBatch_mem (guard : CountyLoadingJob → Bool) (abort : ℕ → Bool)
    (batchSize : ℕ) :
    ∀ (jobs : List CountyLoadingJob) (k : ℕ) (j : CountyLoadingJob),
      j ∈ (processJobBatch guard abort batchSize jobs k).1 → j ∈ jobs := by
  intro jobs k
  induction jobs, k using processJobBatch.induct guard abort batchSize with
  | case1 k =>
    intro j hj
    simp [processJobBatch] at hj
  | case2 j rest k habort =>
    intro x hx
    rw [processJobBatch, if_pos habort] at hx
    simp at hx
  | case3 j rest k habort ih =>
    intro x hx
    rw [processJobBatch, if_neg habort] at hx
    rcases List.mem_append.mp hx with h | h
    · have hmem := (List.mem_filter.mp h).1
      rcases List.mem_cons.mp hmem with rfl | hmem
      · exact List.mem_cons_self x rest
      · exact List.mem_cons_of_mem j (List.take_subset _ rest hmem)
    · exact List.mem_cons_of_mem j (List.drop_subset _ rest (ih x h))

theorem pairwise_of_forall_prop {α : Type} {R : α → α → Prop} {P : α → Prop}
    (l : List α) (hall : ∀ a ∈ l, P a) (h : ∀ a b, P a → P b → R a b) :
    l.Pairwise R := by
  induction l with
  | nil => exact List.Pairwise.nil
  | cons c l ih =>
    refine List.Pairwise.cons ?_ (ih fun a ha => hall a (List.mem_cons_of_mem c ha))
    intro b hb
    exact h c b (hall c (List.mem_cons_self c l)) (hall b (List.mem_cons_of_mem c hb))

/-- C4: in a single drain of `processLoadingQueue`, priority ranks are
non-decreasing along the dispatch trace — every high-priority fetch is
dispatched before any medium-priority fetch, and every medium one before any
low one, for every queue, snapshot, and abort schedule. -/
theorem processLoadingQueue_dispatch_order (snapBoundaries snapLoading : List String)
    (abort : ℕ → Bool) (queue : List CountyLoadingJob) :
    (processLoadingQueue snapBoundaries snapLoading abort queue).Pairwise
      (fun a b => priorityOrder a.priority ≤ priorityOrder b.priority) := by
  unfold processLoadingQueue
  split
  · exact List.Pairwise.nil
  · have hmem1 : ∀ j ∈ (processJobBatch (alreadyHandled snapBoundaries snapLoading) abort 3
        ((sortQueue queue).filter fun j => decide (j.priority = .high)) 0).1,
        j.priority = .high := fun j hj =>
      of_decide_eq_true (List.mem_filter.mp (processJobBatch_mem _ _ _ _ _ j hj)).2
    have hmem2 : ∀ j ∈ (processJobBatch (alreadyHandled snapBoundaries snapLoading) abort 2
        ((sortQueue queue).filter fun j => decide (j.priority = .medium))
        (processJobBatch (alreadyHandled snapBoundaries snapLoading) abort 3
          ((sortQueue queue).filter fun j => decide (j.priority = .high)) 0).2).1,
        j.priority = .medium := fun j hj =>
      of_decide_eq_true (List.mem_filter.mp (processJobBatch_mem _ _ _ _ _ j hj)).2
    have hmem3 : ∀ j ∈ (processJobBatch (alreadyHandled snapBoundaries snapLoading) abort 1
        ((sortQueue queue).filter fun j => decide (j.priority = .low))
        (processJobBatch (alreadyHandled snapBoundaries snapLoading) abort 2
          ((sortQueue queue).filter fun j => decide (j.priority = .medium))
          (processJobBatch (alreadyHandled snapBoundaries snapLoading) abort 3
            ((sortQueue queue).filter fun j => decide (j.priority = .high)) 0).2).2).1,
        j.priority = .low := fun j hj =>
      of_decide_eq_true (List.mem_filter.mp (processJobBatch_mem _ _ _ _ _ j hj)).2
    rw [List.pairwise_append]
    refine ⟨?_, ?_, ?_⟩
    · rw [List.pairwise_append]
      refine ⟨?_, ?_, ?_⟩
      · exact pairwise_of_forall_prop _ hmem1
          fun a b ha hb => le_of_eq (by rw [ha, hb])
      · exact pairwise_of_forall_prop _ hmem2
          fun a b ha hb => le_of_eq (by rw [ha, hb])
      · intro a ha b hb
        rw [hmem1 a ha, hmem2 b hb]
        decide
    · exact pairwise_of_forall_prop _ hmem3
        fun a b ha hb => le_of_eq (by rw [ha, hb])
    · intro a ha b hb
      rcases List.mem_append.mp ha with h | h
      · rw [hmem1 a h, hmem3 b hb]; decide
      · rw [hmem2 a h, hmem3 b hb]; decide

/-- C5 counterexample: in the medium bucket of the sorted queue
`[c5jobWithDistance, c5jobNoDistance]`, the job without a distance is ordered
BEFORE the job with one (the comparator treats a missing distance as 0 via
`a.distance || 0`), contradicting the claim that jobs without a distance sort
after those with one. -/
theorem sortQueue_missing_distance_first :
    (sortQueue [c5jobWithDistance, c5jobNoDistance]).filter
        (fun j => decide (j.priority = .medium))
      = [c5jobNoDistance, c5jobWithDistance] ∧
    ¬ missingDistanceLast
        ((sortQueue [c5jobWithDistance, c5jobNoDistance]).filter
          fun j => decide (j.priority = .medium)) := by
  have hAB : ¬ jsSortLe c5jobWithDistance c5jobNoDistance := by
    unfold jsSortLe c5jobWithDistance c5jobNoDistance
    simp only [priorityOrder]
    rintro (h | ⟨-, h⟩)
    · exact absurd h (lt_irrefl 1)
    · simp only [Option.getD_some, Option.getD_none] at h
      norm_num at h
  have hsort : sortQueue [c5jobWithDistance, c5jobNoDistance]
      = [c5jobNoDistance, c5jobWithDistance] := by
    unfold sortQueue
    simp only [List.insertionSort, List.orderedInsert]
    rw [if_neg hAB]
  have hfilter : (sortQueue [c5jobWithDistance, c5jobNoDistance]).filter
      (fun j => decide (j.priority = LoadPriority.medium))
        = [c5jobNoDistance, c5jobWithDistance] := by
    rw [hsort]
    rfl
  refine ⟨hfilter, ?_⟩
  intro hml
  unfold missingDistanceLast at hml
  rw [hfilter] at hml
  have hnone := (List.pairwise_cons.mp hml).1 c5jobWithDistance
    (List.mem_singleton.mpr rfl) rfl
  exact Option.noConfusion hnone

theorem filter_orderedInsert_key (k : ℕ × ℚ) (x : CountyLoadingJob) :
    ∀ l : List CountyLoadingJob,
      (List.orderedInsert jsSortLe x l).filter (fun j => decide (jobSortKey j = k))
        = if jobSortKey x = k
          then x :: l.filter (fun j => decide (jobSortKey j = k))
          else l.filter (fun j => decide (jobSortKey j = k)) := by
  intro l
  induction l with
  | nil =>
    simp only [List.orderedInsert, List.filter]
    by_cases hx : jobSortKey x = k
    · simp [hx]
    · simp [hx]
  | cons c l ih =>
    rw [List.orderedInsert]
    by_cases hxc : jsSortLe x c
    · rw [if_pos hxc]
      by_cases hx : jobSortKey x = k
      · simp [List.filter, hx]
      · simp [List.filter, hx]
    · rw [if_neg hxc]
      by_cases hx : jobSortKey x = k
      · have hc : jobSortKey c ≠ k := by
          intro hck
          apply hxc
          have hkey : jobSortKey x = jobSortKey c := by rw [hx, hck]
          unfold jobSortKey at hkey
          rw [Prod.mk.injEq] at hkey
          exact Or.inr ⟨hkey.1, le_of_eq hkey.2⟩
        rw [if_pos hx]
        simp only [List.filter_cons]
        rw [if_neg (by simpa using hc), if_neg (by simpa using hc)]
        rw [ih, if_pos hx]
      · rw [if_neg hx]
        simp only [List.filter_cons]
        by_cases hc : jobSortKey c = k
        · rw [if_pos (by simpa using hc), if_pos (by simpa using hc)]
          rw [ih, if_neg hx]
        · rw [if_neg (by simpa using hc), if_neg (by simpa using hc)]
          rw [ih, if_neg hx]

theorem filter_sortQueue_key (k : ℕ × ℚ) :
    ∀ queue : List CountyLoadingJob,
      (sortQueue queue).filter (fun j => decide (jobSortKey j = k))
        = queue.filter (fun j => decide (jobSortKey j = k)) := by
  intro queue
  induction queue with
  | nil => rfl
  | cons c l ih =>
    show (List.orderedInsert jsSortLe c (sortQueue l)).filter _ = _
    rw [filter_orderedInsert_key k c (sortQueue l), List.filter_cons]
    by_cases hc : jobSortKey c = k
    · rw [if_pos hc, if_pos (by simpa using hc), ih]
    · rw [if_neg hc, if_neg (by simpa using hc), ih]

/-- C5 (amended): the drain's sorted snapshot is a permutation of the queue;
each priority bucket is sorted by ascending distance where a missing distance
counts as 0 (so jobs without a distance order before jobs with positive
distance, not after them); and the sort is stable: jobs with the same
(priority, distance-or-0) key keep their original relative order. -/
theorem processLoadingQueue_bucket_sort (queue : List CountyLoadingJob) :
    List.Perm (sortQueue queue) queue ∧
    (∀ p : LoadPriority,
      ((sortQueue queue).filter fun j => decide (j.priority = p)).Pairwise
        fun a b => a.distanceSq.getD 0 ≤ b.distanceSq.getD 0) ∧
    (∀ k : ℕ × ℚ,
      (sortQueue queue).filter (fun j => decide (jobSortKey j = k))
        = queue.filter fun j => decide (jobSortKey j = k)) := by
  refine ⟨List.perm_insertionSort jsSortLe queue, ?_, fun k => filter_sortQueue_key k queue⟩
  intro p
  have hsorted : (sortQueue queue).Pairwise jsSortLe :=
    List.sorted_insertionSort jsSortLe queue
  have hfil : ((sortQueue queue).filter fun j => decide (j.priority = p)).Pairwise jsSortLe :=
    hsorted.sublist (List.filter_sublist _)
  refine hfil.imp_of_mem ?_
  intro a b ha hb hab
  have hap : a.priority = p := of_decide_eq_true (List.mem_filter.mp ha).2
  have hbp : b.priority = p := of_decide_eq_true (List.mem_filter.mp hb).2
  rcases hab with h | ⟨-, h⟩
  · rw [hap, hbp] at h
    exact absurd h (lt_irrefl _)
  · exact h

/-! ## Navigation machine lemmas and claim theorems -/

theorem polygonEdges_squareRing :
    polygonEdges squareRing
      = [((0, 0), (0, 10)), ((10, 0), (0, 0)), ((10, 10), (10, 0)), ((0, 10), (10, 10))] := rfl

theorem rayCrosses_sq1 : rayCrosses (5, 5) ((0, 0), (0, 10)) = false := by
  norm_num [rayCrosses]

theorem rayCrosses_sq2 : rayCrosses (5, 5) ((10, 0), (0, 0)) = false := by
  norm_num [rayCrosses]

theorem rayCrosses_sq3 : rayCrosses (5, 5) ((10, 10), (10, 0)) = true := by
  norm_num [rayCrosses]

theorem rayCrosses_sq4 : rayCrosses (5, 5) ((0, 10), (10, 10)) = false := by
  norm_num [rayCrosses]

theorem pointInPolygon_square_center : pointInPolygon (5, 5) squareRing = true := by
  unfold pointInPolygon
  rw [polygonEdges_squareRing]
  simp only [List.foldl_cons, List.foldl_nil]
  rw [rayCrosses_sq1, rayCrosses_sq2, rayCrosses_sq3, rayCrosses_sq4]
  rfl

theorem findContainingDMA_inside : findContainingDMA (5, 5) [dmaA] = some (some dmaA) := by
  have hpf : pointInFeature (5, 5) dmaA.feature = some true := by
    show pointInFeature (5, 5) ⟨some (.polygon [squareRing])⟩ = some true
    rw [show pointInFeature (5, 5) ⟨some (.polygon [squareRing])⟩
        = some (pointInPolygon (5, 5) squareRing) from rfl]
    rw [pointInPolygon_square_center]
  have hcb : centerInBounds (5, 5) dmaA.bounds = true := rfl
  rw [show findContainingDMA (5, 5) [dmaA]
      = if centerInBounds (5, 5) dmaA.bounds then
          (match pointInFeature (5, 5) dmaA.feature with
            | none => none
            | some true => some (some dmaA)
            | some false => findContainingDMA (5, 5) [])
        else findContainingDMA (5, 5) [] from rfl]
  rw [hcb, hpf]
  rfl

theorem findContainingDMA_outside : findContainingDMA (50, 50) [dmaA] = some none := rfl

theorem navStep_zoomIn :
    navStep [dmaA] initialNavState (.viewportChange (5, 5) 9) = some c1stateMid := by
  show handleViewportChange [dmaA] initialNavState (5, 5) 9 = some c1stateMid
  unfold handleViewportChange
  rw [if_neg (by rintro ⟨h, -⟩; exact Bool.false_ne_true h)]
  rw [if_pos ⟨fun h => Bool.false_ne_true h, by norm_num⟩]
  rw [findContainingDMA_inside]
  rfl

theorem navStep_panOut :
    navStep [dmaA] c1stateMid (.viewportChange (50, 50) 9) = some c1state := by
  show handleViewportChange [dmaA] c1stateMid (50, 50) 9 = some c1state
  unfold handleViewportChange
  rw [if_neg (by rintro ⟨-, -, h⟩; norm_num at h)]
  rw [if_neg (by rintro ⟨h, -⟩; exact h rfl)]
  rw [if_pos ⟨rfl, by norm_num⟩]
  rw [findContainingDMA_outside]
  rfl

/-- C1 counterexample: after the reachable trace "zoom into region A at zoom
9, then pan the center outside every region while still at zoom 9", the state
has `isDrilledIn = true` and `activeParentRegionId = none`: the claimed chain
`childRegionsVisible ⟹ isDrilledIn ⟹ activeParentRegionId ≠ none` fails on a
reachable state (its second implication is violated, exactly at the
pan-outside transition the claim says must preserve it). -/
theorem nav_reachable_breaks_invariant_chain :
    navRun [dmaA] initialNavState c1events = some c1state ∧
      c1state.isZoomedToDMA = true ∧ c1state.selectedDMA = none ∧
      ¬ navInvariantChain c1state := by
  refine ⟨?_, rfl, rfl, ?_⟩
  · unfold c1events
    simp only [navRun, navStep_zoomIn, navStep_panOut]
  · rintro ⟨-, h⟩
    exact h rfl rfl

theorem navStep_preserves_navInvariant (dmas : List DMAData) (s : NavState) (e : MapEvent)
    (s' : NavState) (hstep : navStep dmas s e = some s') (hs : navInvariant s) :
    navInvariant s' := by
  cases e with
  | viewportChange center zoom =>
    have hv : handleViewportChange dmas s center zoom = some s' := hstep
    unfold handleViewportChange at hv
    split at hv
    · injection hv with h
      subst h
      intro hshow
      cases hshow
    · split at hv
      · split at hv
        · cases hv
        · injection hv with h
          subst h
          exact hs
        · injection hv with h
          subst h
          intro _
          exact ⟨rfl, by simp⟩
      · split at hv
        · rename_i hnot1 hnot2 hcond
          split at hv
          · cases hv
          · split at hv
            · injection hv with h
              subst h
              intro _
              exact ⟨hcond.1, by simp⟩
            · injection hv with h
              subst h
              exact hs
          · split at hv
            · injection hv with h
              subst h
              intro hshow
              cases hshow
            · injection hv with h
              subst h
              exact hs
        · injection hv with h
          subst h
          exact hs
  | dmaClick dmaId =>
    injection hstep with h
    subst h
    unfold handleDMAClick
    split
    · exact hs
    · split
      · exact hs
      · intro _
        exact ⟨rfl, by simp⟩
  | resetDMAZoom =>
    injection hstep with h
    subst h
    intro hshow
    cases hshow
  | selectCounty n =>
    injection hstep with h
    subst h
    intro hshow
    exact hs hshow
  | deselectCounty n =>
    injection hstep with h
    subst h
    intro hshow
    exact hs hshow
  | clearSelection =>
    injection hstep with h
    subst h
    intro hshow
    exact hs hshow

theorem navRun_preserves_navInvariant (dmas : List DMAData) :
    ∀ (events : List MapEvent) (s s' : NavState),
      navRun dmas s events = some s' → navInvariant s → navInvariant s' := by
  intro events
  induction events with
  | nil =>
    intro s s' hrun hs
    injection hrun with h
    subst h
    exact hs
  | cons e es ih =>
    intro s s' hrun hs
    unfold navRun at hrun
    cases hstep : navStep dmas s e with
    | none => rw [hstep] at hrun; cases hrun
    | some s1 =>
      rw [hstep] at hrun
      exact ih s1 s' hrun (navStep_preserves_navInvariant dmas s e s1 hstep hs)

/-- C1 (amended): for every DMA topology and every event sequence from the
initial state, every reachable state satisfies `childRegionsVisible ⟹
(isDrilledIn ∧ activeParentRegionId ≠ none)`.  The claimed stronger chain
fails: after the pan-outside transition `isDrilledIn` stays true with no
active region (see the counterexample), so `isDrilledIn` alone does not imply
an active region. -/
theorem navRun_showCounties_invariant (dmas : List DMAData) (events : List MapEvent)
    (s' : NavState) (hrun : navRun dmas initialNavState events = some s') :
    s'.showCountiesInDMA = true → s'.isZoomedToDMA = true ∧ s'.selectedDMA ≠ none :=
  navRun_preserves_navInvariant dmas events initialNavState s' hrun (fun h => by cases h)

/-- Witness for C1 (amended): the state reached by zooming into region A has
children visible, and indeed is drilled in with an active region. -/
theorem navRun_showCounties_invariant_witness :
    navRun [dmaA] initialNavState [.viewportChange (5, 5) 9] = some c1stateMid ∧
      (c1stateMid.isZoomedToDMA = true ∧ c1stateMid.selectedDMA ≠ none) := by
  have hrun : navRun [dmaA] initialNavState [.viewportChange (5, 5) 9] = some c1stateMid := by
    rw [show navRun [dmaA] initialNavState [.viewportChange (5, 5) 9]
        = (match navStep [dmaA] initialNavState (.viewportChange (5, 5) 9) with
            | none => none
            | some s' => navRun [dmaA] s' []) from rfl]
    rw [navStep_zoomIn]
    rfl
  exact ⟨hrun, navRun_showCounties_invariant [dmaA] _ c1stateMid hrun rfl⟩

/-- C8: every navigation transition — viewport change (zoom-in discovery, pan
across a boundary, zoom-out exit, and the no-op branches), programmatic DMA
click, and the reset action — leaves `selectedCounties` unchanged; only the
explicit selection events modify it. -/
theorem navigation_preserves_selection (dmas : List DMAData) (s : NavState) (e : MapEvent)
    (s' : NavState) (hnav : isNavigationEvent e) (hstep : navStep dmas s e = some s') :
    s'.selectedCounties = s.selectedCounties := by
  cases e with
  | viewportChange center zoom =>
    have hv : handleViewportChange dmas s center zoom = some s' := hstep
    unfold handleViewportChange at hv
    split at hv
    · injection hv with h; subst h; rfl
    · split at hv
      · split at hv
        · cases hv
        · injection hv with h; subst h; rfl
        · injection hv with h; subst h; rfl
      · split at hv
        · split at hv
          · cases hv
          · split at hv
            · injection hv with h; subst h; rfl
            · injection hv with h; subst h; rfl
          · split at hv
            · injection hv with h; subst h; rfl
            · injection hv with h; subst h; rfl
        · injection hv with h; subst h; rfl
  | dmaClick dmaId =>
    injection hstep with h
    subst h
    unfold handleDMAClick
    split
    · rfl
    · split
      · rfl
      · rfl
  | resetDMAZoom =>
    injection hstep with h
    subst h
    rfl
  | selectCounty n => cases hnav
  | deselectCounty n => cases hnav
  | clearSelection => cases hnav

/-- Witness for C8: resetting while drilled in with "Alpha" selected leaves
"Alpha" selected. -/
theorem navigation_preserves_selection_witness :
    isNavigationEvent .resetDMAZoom ∧
      navStep [] c8start .resetDMAZoom = some (handleResetDMAZoom c8start) ∧
      (handleResetDMAZoom c8start).selectedCounties = c8start.selectedCounties :=
  ⟨trivial, rfl,
    navigation_preserves_selection [] c8start .resetDMAZoom (handleResetDMAZoom c8start)
      trivial rfl⟩

/-- C2 (code behaviour at the failing input): two guarded submissions of the
same key in one event-loop turn — no re-render between them, so both guards
read the same stale closure snapshot — dispatch TWO `fetchCountyBoundary`
calls, not one; with a re-render committing the loading set between the two
submissions, the second guard blocks and exactly one fetch is dispatched. -/
theorem duplicate_submit_two_fetches :
    (fetchRun initialFetchState
        [.submit "Adams, Ohio", .submit "Adams, Ohio"]).fetchLog
      = ["Adams, Ohio", "Adams, Ohio"] ∧
    (fetchRun initialFetchState
        [.submit "Adams, Ohio", .render, .submit "Adams, Ohio"]).fetchLog
      = ["Adams, Ohio"] := by
  constructor
  · rfl
  · rfl

/-! ## Claim theorem for `getSelectedCountiesStats` (C7) -/

/-- C7: with an empty selection the result is `none`; for every selection and
list whose selected sub-list is non-empty, the result sums the request,
conversion and connected-call counts, takes the min of the per-county
`minBid` and the max of the per-county `maxBid`, and computes `avgBid` as the
unweighted arithmetic mean of the per-county average bids. -/
theorem getSelectedCountiesStats_spec :
    (∀ countyData : List CountyData, getSelectedCountiesStats [] countyData = none) ∧
    (∀ (selectedCounties : List String) (countyData : List CountyData),
      selectedData selectedCounties countyData ≠ [] →
      ∃ stats, getSelectedCountiesStats selectedCounties countyData = some stats ∧
        stats.totalRequests
          = ((selectedData selectedCounties countyData).map
              fun c => c.aggregatedStats.totalRequests).sum ∧
        stats.totalConversions
          = ((selectedData selectedCounties countyData).map
              fun c => c.aggregatedStats.totalConversions).sum ∧
        stats.totalCallsConnected
          = ((selectedData selectedCounties countyData).map
              fun c => c.aggregatedStats.totalCallsConnected).sum ∧
        stats.avgBid
          = ((selectedData selectedCounties countyData).map
              fun c => c.aggregatedStats.avgBid).sum
            / ((selectedData selectedCounties countyData).length : ℚ) ∧
        (∃ c ∈ selectedData selectedCounties countyData,
          stats.minBid = (c.aggregatedStats.minBid : WithTop ℚ)) ∧
        (∀ c ∈ selectedData selectedCounties countyData,
          stats.minBid ≤ (c.aggregatedStats.minBid : WithTop ℚ)) ∧
        (∃ c ∈ selectedData selectedCounties countyData,
          stats.maxBid = (c.aggregatedStats.maxBid : WithBot ℚ)) ∧
        (∀ c ∈ selectedData selectedCounties countyData,
          (c.aggregatedStats.maxBid : WithBot ℚ) ≤ stats.maxBid)) := by
  constructor
  · intro countyData
    have hsel : selectedData [] countyData = [] := by
      unfold selectedData
      exact List.filter_eq_nil_iff.mpr fun a _ => by simp
    unfold getSelectedCountiesStats
    rw [hsel]
    rfl
  · intro selectedCounties countyData hne
    have hempty : (selectedData selectedCounties countyData).isEmpty = false := by
      cases h : selectedData selectedCounties countyData with
      | nil => exact absurd h hne
      | cons a l => rfl
    obtain ⟨c0, hc0⟩ : ∃ c, c ∈ selectedData selectedCounties countyData := by
      cases h : selectedData selectedCounties countyData with
      | nil => exact absurd h hne
      | cons a l => exact ⟨a, h ▸ List.mem_cons_self a l⟩
    have hreq := foldl_countiesReduceStep_totalRequests
      (selectedData selectedCounties countyData) countiesReduceInit
    have hconv := foldl_countiesReduceStep_totalConversions
      (selectedData selectedCounties countyData) countiesReduceInit
    have hcall := foldl_countiesReduceStep_totalCallsConnected
      (selectedData selectedCounties countyData) countiesReduceInit
    have havg := foldl_countiesReduceStep_avgBidSum
      (selectedData selectedCounties countyData) countiesReduceInit
    have hcount := foldl_countiesReduceStep_countyCount
      (selectedData selectedCounties countyData) countiesReduceInit
    have hminf := foldl_countiesReduceStep_minBid
      (selectedData selectedCounties countyData) countiesReduceInit
    have hmaxf := foldl_countiesReduceStep_maxBid
      (selectedData selectedCounties countyData) countiesReduceInit
    rw [show countiesReduceInit.totalRequests = 0 from rfl, zero_add] at hreq
    rw [show countiesReduceInit.totalConversions = 0 from rfl, zero_add] at hconv
    rw [show countiesReduceInit.totalCallsConnected = 0 from rfl, zero_add] at hcall
    rw [show countiesReduceInit.avgBidSum = 0 from rfl, zero_add] at havg
    rw [show countiesReduceInit.countyCount = 0 from rfl, Nat.zero_add] at hcount
    rw [show countiesReduceInit.minBid = (⊤ : WithTop ℚ) from rfl] at hminf
    rw [show countiesReduceInit.maxBid = (⊥ : WithBot ℚ) from rfl] at hmaxf
    have hminmem : ∃ c ∈ selectedData selectedCounties countyData,
        ((selectedData selectedCounties countyData).foldl countiesReduceStep
          countiesReduceInit).minBid = (c.aggregatedStats.minBid : WithTop ℚ) := by
      rw [hminf]
      rcases foldl_min_eq_init_or_mem
          ((selectedData selectedCounties countyData).map
            (fun c => (c.aggregatedStats.minBid : WithTop ℚ))) ⊤ with h | ⟨x, hx, h⟩
      · exfalso
        have hle := foldl_min_le_mem
          ((selectedData selectedCounties countyData).map
            (fun c => (c.aggregatedStats.minBid : WithTop ℚ))) ⊤
          (c0.aggregatedStats.minBid : WithTop ℚ) (List.mem_map_of_mem _ hc0)
        rw [h] at hle
        exact WithTop.coe_ne_top (top_le_iff.mp hle)
      · rcases List.mem_map.mp hx with ⟨c, hc, rfl⟩
        exact ⟨c, hc, h⟩
    have hmaxmem : ∃ c ∈ selectedData selectedCounties countyData,
        ((selectedData selectedCounties countyData).foldl countiesReduceStep
          countiesReduceInit).maxBid = (c.aggregatedStats.maxBid : WithBot ℚ) := by
      rw [hmaxf]
      rcases foldl_max_eq_init_or_mem
          ((selectedData selectedCounties countyData).map
            (fun c => (c.aggregatedStats.maxBid : WithBot ℚ))) ⊥ with h | ⟨x, hx, h⟩
      · exfalso
        have hle := foldl_max_mem_le
          ((selectedData selectedCounties countyData).map
            (fun c => (c.aggregatedStats.maxBid : WithBot ℚ))) ⊥
          (c0.aggregatedStats.maxBid : WithBot ℚ) (List.mem_map_of_mem _ hc0)
        rw [h] at hle
        exact WithBot.coe_ne_bot (le_bot_iff.mp hle)
      · rcases List.mem_map.mp hx with ⟨c, hc, rfl⟩
        exact ⟨c, hc, h⟩
    unfold getSelectedCountiesStats
    rw [hempty]
    refine ⟨_, rfl, hreq, hconv, hcall, ?_, hminmem, ?_, hmaxmem, ?_⟩
    · show ((selectedData selectedCounties countyData).foldl countiesReduceStep
          countiesReduceInit).avgBidSum
        / (((selectedData selectedCounties countyData).foldl countiesReduceStep
            countiesReduceInit).countyCount : ℚ) = _
      rw [havg, hcount]
    · intro c hc
      have hle := foldl_min_le_mem
        ((selectedData selectedCounties countyData).map
          (fun c => (c.aggregatedStats.minBid : WithTop ℚ))) ⊤
        (c.aggregatedStats.minBid : WithTop ℚ) (List.mem_map_of_mem _ hc)
      show ((selectedData selectedCounties countyData).foldl countiesReduceStep
          countiesReduceInit).minBid ≤ _
      rw [hminf]
      exact hle
    · intro c hc
      have hle := foldl_max_mem_le
        ((selectedData selectedCounties countyData).map
          (fun c => (c.aggregatedStats.maxBid : WithBot ℚ))) ⊥
        (c.aggregatedStats.maxBid : WithBot ℚ) (List.mem_map_of_mem _ hc)
      show _ ≤ ((selectedData selectedCounties countyData).foldl countiesReduceStep
          countiesReduceInit).maxBid
      rw [hmaxf]
      exact hle

/-- Witness for C7: selecting "Alpha" (100 requests, average bid 10) and
"Beta" (200 requests, average bid 20) yields total requests 300 and average
bid 15. -/
theorem getSelectedCountiesStats_spec_witness :
    selectedData ["Alpha", "Beta"] [c7alpha, c7beta] ≠ [] ∧
      ∃ stats, getSelectedCountiesStats ["Alpha", "Beta"] [c7alpha, c7beta] = some stats ∧
        stats.totalRequests = 300 ∧ stats.avgBid = 15 := by
  have hsel : selectedData ["Alpha", "Beta"] [c7alpha, c7beta] = [c7alpha, c7beta] := rfl
  have hne : selectedData ["Alpha", "Beta"] [c7alpha, c7beta] ≠ [] := by
    rw [hsel]
    exact List.cons_ne_nil c7alpha [c7beta]
  obtain ⟨stats, hsome, h1, -, -, h4, -⟩ :=
    getSelectedCountiesStats_spec.2 ["Alpha", "Beta"] [c7alpha, c7beta] hne
  refine ⟨hne, stats, hsome, ?_, ?_⟩
  · rw [h1, hsel]
    norm_num [c7alpha, c7beta]
  · rw [h4, hsel]
    norm_num [c7alpha, c7beta]

end CallVolume